import Mathlib

/-!
Verification development for the pump-fun-streams repository
(`app.py` and `scraper/live_streams_viewercount.py`).

The Python code is shallowly embedded: JSON objects become structures with
`Option`-valued fields (a missing key is `none`, mirroring `dict.get`), the
Python `dict` used for the featured cache becomes an insertion-ordered
association list, Python sets of identifiers become lists queried by
membership, and the iteration order of a Python `set` (which Python leaves
unspecified) is an explicit parameter.  Network effects are parameters as
well: the listing responses and the per-candidate detail responses are
inputs to the embedded functions.
-/

namespace PumpStreams

/-- One element of the persisted snapshot `pumpfun_streams.json`, as read back
by the Flask route.  Every field is read in `app.py` with `dict.get`, so every
field is optional; `viewers` is the raw JSON value (`None` meaning absent). -/
structure SnapItem where
  mintId : Option String
  title : Option String
  thumbnail : Option String
  viewers : Option Int
  streamerName : Option String
  gameCategory : Option String
  url : Option String
  isLive : Option Bool
deriving DecidableEq, Repr

/-- One value of the featured cache `featured_cache.json`.  Entries written by
`get_streams` have every field populated, but an arbitrary pre-existing cache
file may omit fields, so each field is optional (read with `dict.get`). -/
structure CacheEntry where
  title : Option String
  thumbnail : Option String
  viewerCount : Option Int
  streamerName : Option String
  gameCategory : Option String
  url : Option String
  mintId : Option String
deriving DecidableEq, Repr

/-- The featured cache: a Python `dict` keyed by mintId, modelled as an
insertion-ordered association list (Python dicts preserve insertion order). -/
abbrev Cache := List (String × CacheEntry)

/-- One element of the `transformed` list returned by `/api/streams`. -/
structure OutItem where
  title : String
  thumbnail : String
  viewerCount : Int
  streamerName : String
  gameCategory : String
  url : String
  featured : Bool
  isLive : Bool
deriving DecidableEq, Repr

/-- Boolean membership of a string in a list of strings (a Python
`x in set(...)` test on string identifiers). -/
def slMem : List String → String → Bool
  | [], _ => false
  | x :: xs, a => if x = a then true else slMem xs a

/-- Membership test `mint_id in ids` where `mint_id` may be Python `None`
(a `None` is never a member of a set of strings). -/
def optMem (m : Option String) (l : List String) : Bool :=
  match m with
  | some s => slMem l s
  | none => false

/-- First-match association-list lookup, `featured_cache[k]` /
`k in featured_cache`. -/
def alookup : Cache → String → Option CacheEntry
  | [], _ => none
  | (k', v) :: rest, k => if k' = k then some v else alookup rest k

/-- Whether the dict has the key. -/
def keyMem : Cache → String → Bool
  | [], _ => false
  | (k', _) :: rest, k => if k' = k then true else keyMem rest k

/-- Python dict assignment `d[k] = v`: an existing key keeps its position and
gets the new value; a new key is appended at the end. -/
def dictInsert (c : Cache) (k : String) (v : CacheEntry) : Cache :=
  if keyMem c k then c.map (fun p => if p.1 = k then (k, v) else p)
  else c ++ [(k, v)]

/-- The dict literal built at `app.py` lines 245-253 from a live featured
snapshot item (the cache-refresh upsert value). -/
def snapProj (s : SnapItem) : CacheEntry :=
  { title := some (s.title.getD "Unknown Stream")
    thumbnail := some (s.thumbnail.getD "")
    viewerCount := some (s.viewers.getD 0)
    streamerName := some (s.streamerName.getD "Unknown")
    gameCategory := some (s.gameCategory.getD "Unknown")
    url := some (s.url.getD "#")
    mintId := s.mintId }

/-- The guard of the cache-refresh loop body (`app.py` line 240): the item
upserts key `m` with `snapProj s` exactly when its `mintId` is present, in
the featured set, and its `isLive` is truthy. -/
def upsertKV (s : SnapItem) (feat : List String) : Option (String × CacheEntry) :=
  match s.mintId with
  | some m => if slMem feat m ∧ s.isLive = some true then some (m, snapProj s) else none
  | none => none

/-- Cache-refresh loop of `get_streams` (`app.py` lines 237-253): for each
snapshot item whose `mintId` is in the featured set and whose `isLive` is
truthy, upsert the cache at that key.  The blacklist is not consulted. -/
def refreshCache : List SnapItem → List String → Cache → Cache
  | [], _, c => c
  | s :: rest, feat, c =>
    refreshCache rest feat
      (match upsertKV s feat with
       | some (m, v) => dictInsert c m v
       | none => c)

/-- The last upsert the refresh loop performs at a given key, if any (later
snapshot items override earlier ones). -/
def lastHit : List SnapItem → List String → String → Option CacheEntry
  | [], _, _ => none
  | s :: rest, feat, k =>
    match lastHit rest feat k with
    | some v => some v
    | none =>
      match upsertKV s feat with
      | some (m, v) => if m = k then some v else none
      | none => none

/-- Cache eviction (`app.py` line 256): keep only keys still in the featured
set. -/
def evictCache (feat : List String) (c : Cache) : Cache :=
  c.filter (fun p => slMem feat p.1)

/-- The public view of one snapshot item (`stream_data`, `app.py` lines
272-281). -/
def toOutItem (feat : List String) (s : SnapItem) : OutItem :=
  { title := s.title.getD "Unknown Stream"
    thumbnail := s.thumbnail.getD ""
    viewerCount := s.viewers.getD 0
    streamerName := s.streamerName.getD "Unknown"
    gameCategory := s.gameCategory.getD "Unknown"
    url := s.url.getD "#"
    featured := optMem s.mintId feat
    isLive := s.isLive.getD false }

/-- The "Process current streams" loop (`app.py` lines 262-286): skip
blacklisted mintIds, emit a public item for every other snapshot item, and
record featured mintIds as processed.  The loop appends to `transformed` and
`featured_mint_ids_processed` in order; this recursion builds the same lists. -/
def livePass : List SnapItem → List String → List String → List OutItem × List String
  | [], _, _ => ([], [])
  | s :: rest, bl, feat =>
    let r := livePass rest bl feat
    if optMem s.mintId bl then r
    else
      (toOutItem feat s :: r.1,
       match s.mintId with
       | some m => if slMem feat m then m :: r.2 else r.2
       | none => r.2)

/-- The synthesized offline item appended for a cached featured stream
(`app.py` lines 292-301). -/
def backfillItem (e : CacheEntry) : OutItem :=
  { title := e.title.getD "Unknown Stream"
    thumbnail := e.thumbnail.getD ""
    viewerCount := 0
    streamerName := e.streamerName.getD "Unknown"
    gameCategory := e.gameCategory.getD "Unknown"
    url := e.url.getD "#"
    featured := true
    isLive := false }

/-- The "Add offline featured streams from cache" loop (`app.py` lines
288-301).  The Python loop iterates over `featured_ids`, a `set`, whose
iteration order is unspecified; the first argument is that iteration order. -/
def backfillPass : List String → List String → Cache → List OutItem
  | [], _, _ => []
  | m :: ms, processed, cache =>
    if slMem processed m then backfillPass ms processed cache
    else
      match alookup cache m with
      | some e => backfillItem e :: backfillPass ms processed cache
      | none => backfillPass ms processed cache

/-- The reconciliation core of `get_streams` (`app.py` lines 233-303), after
the snapshot has been loaded successfully.  Arguments: the snapshot, the
blacklist, the featured list (used for membership, i.e. as the set
`featured_ids`), the iteration order of that set (`featEnum`, a permutation
of its elements, unspecified by Python), and the featured cache as loaded.
Returns the response list and the cache as persisted by
`save_featured_cache`. -/
def get_streams_core (streams : List SnapItem) (blacklist featured featEnum : List String)
    (c0 : Cache) : List OutItem × Cache :=
  let c1 := evictCache featured (refreshCache streams featured c0)
  let lp := livePass streams blacklist featured
  (lp.1 ++ backfillPass featEnum lp.2 c1, c1)

/-- Outcome of reading `pumpfun_streams.json` in the route: the file may be
missing, unparsable, or a parsed list of items. -/
inductive SnapshotRead where
  | missing
  | corrupt
  | ok (streams : List SnapItem)
deriving DecidableEq, Repr

/-- The JSON body returned by `/api/streams`: a `streams` list and an
optional `error` field. -/
structure ApiResponse where
  streams : List OutItem
  error : Option String
deriving DecidableEq, Repr

/-- The `/api/streams` route (`app.py` lines 221-303).  On the early returns
(missing or corrupt snapshot) the cache file is untouched, so the persisted
cache is returned unchanged. -/
def get_streams (r : SnapshotRead) (blacklist featured featEnum : List String)
    (c0 : Cache) : ApiResponse × Cache :=
  match r with
  | .missing => ({ streams := [], error := none }, c0)
  | .corrupt => ({ streams := [], error := some "Failed to load streams" }, c0)
  | .ok streams =>
    let res := get_streams_core streams blacklist featured featEnum c0
    ({ streams := res.1, error := none }, res.2)

/-! ## Listing fetcher, enrichment and snapshot persist -/

/-- One object of the listing endpoint's response array; the code reads the
keys `mint`, `name` and `image_uri` with `dict.get`, so all are optional. -/
structure Coin where
  mint : Option String
  name : Option String
  image_uri : Option String
deriving DecidableEq, Repr

/-- One entry of `all_streams` (the candidate dict built by
`fetch_live_streams`). -/
structure Cand where
  title : String
  streamerName : String
  gameCategory : String
  mintId : Option String
  url : String
  thumbnail : String
  viewers : Int
  isLive : Bool
deriving DecidableEq, Repr

/-- Whether the list starts with the pattern. -/
def startsWithPat : List Char → List Char → Bool
  | [], _ => true
  | _ :: _, [] => false
  | p :: ps, c :: cs => if p = c then startsWithPat ps cs else false

/-- Whether the pattern occurs anywhere in the list. -/
def containsPat (pat : List Char) : List Char → Bool
  | [] => startsWithPat pat []
  | c :: cs => startsWithPat pat (c :: cs) || containsPat pat cs

/-- Replace every non-overlapping occurrence of a non-empty pattern, left to
right.  The fuel argument (instantiated with the input length) only makes the
recursion structural; each step consumes at least one character, so the fuel
never runs out. -/
def replacePatAux (pat rep : List Char) : Nat → List Char → List Char
  | _, [] => []
  | 0, s => s
  | fuel + 1, c :: cs =>
    if startsWithPat pat (c :: cs) ∧ pat ≠ [] then
      rep ++ replacePatAux pat rep fuel (cs.drop (pat.length - 1))
    else c :: replacePatAux pat rep fuel cs

/-- Python's `pat in s` substring test. -/
def pyContains (pat s : String) : Bool := containsPat pat.data s.data

/-- Python's `s.replace(pat, rep)` for a non-empty pattern: replace every
non-overlapping occurrence left to right. -/
def pyReplace (s pat rep : String) : String :=
  ⟨replacePatAux pat.data rep.data s.data.length s.data⟩

/-- Thumbnail gateway rewrite of `app.py` lines 126-130: `if thumbnail and
"ipfs.io/ipfs/" in thumbnail: ... elif thumbnail and "cf-ipfs.com/ipfs/" in
thumbnail: ...`. -/
def rewriteThumb (t : String) : String :=
  if t ≠ "" ∧ pyContains "ipfs.io/ipfs/" t then pyReplace t "ipfs.io/ipfs/" "dweb.link/ipfs/"
  else if t ≠ "" ∧ pyContains "cf-ipfs.com/ipfs/" t then
    pyReplace t "cf-ipfs.com/ipfs/" "dweb.link/ipfs/"
  else t

/-- Python `f"https://pump.fun/{mint_id}"` renders `None` as the string
`"None"`. -/
def mintStr : Option String → String
  | some m => m
  | none => "None"

/-- The candidate dict appended by `app.py` lines 132-141 (with the gateway
rewrite of lines 126-130). -/
def mkCandApp (coin : Coin) : Cand :=
  { title := "Unknown Title"
    streamerName := coin.name.getD "Unknown"
    gameCategory := "Crypto"
    mintId := coin.mint
    url := "https://pump.fun/" ++ mintStr coin.mint
    thumbnail := rewriteThumb (coin.image_uri.getD "")
    viewers := 0
    isLive := false }

/-- The candidate dict appended by `scraper/live_streams_viewercount.py`
lines 99-108: identical except that the thumbnail is `coin.get("image_uri",
"")` with no gateway rewrite. -/
def mkCandScraper (coin : Coin) : Cand :=
  { title := "Unknown Title"
    streamerName := coin.name.getD "Unknown"
    gameCategory := "Crypto"
    mintId := coin.mint
    url := "https://pump.fun/" ++ mintStr coin.mint
    thumbnail := coin.image_uri.getD ""
    viewers := 0
    isLive := false }

/-- The per-coin body of the paging loop (`for coin in data`), over the
concatenation of the successfully fetched pages: skip blacklisted mints,
append a candidate for every other coin.  `mk` is the candidate constructor
of the respective source file. -/
def collectCandidates (mk : Coin → Cand) : List Coin → List String → List Cand
  | [], _ => []
  | coin :: rest, bl =>
    if optMem coin.mint bl then collectCandidates mk rest bl
    else mk coin :: collectCandidates mk rest bl

/-- Outcome of one request to the detail endpoint: an exception (timeout,
transport error, unparsable body), or an HTTP response with a status code
and the three JSON fields the code reads. -/
inductive DetailResult where
  | err
  | http (status : Nat) (numParticipants : Option Int) (isLive : Option Bool)
      (title : Option String)
deriving DecidableEq, Repr

/-- Python `details.get("title") or fallback`: a missing or empty title
falls back. -/
def pyOrTitle (t : Option String) (fallback : String) : String :=
  match t with
  | some s => if s = "" then fallback else s
  | none => fallback

/-- `fetch_stream_detail`: on HTTP 200 take the response fields (title only
if truthy); on any other status or on an exception set viewers to 0 and
isLive to false, leaving the title untouched. -/
def applyDetail1 (r : DetailResult) (c : Cand) : Cand :=
  match r with
  | .err => { c with viewers := 0, isLive := false }
  | .http status np il t =>
    if status = 200 then
      { c with viewers := np.getD 0, isLive := il.getD false, title := pyOrTitle t c.title }
    else { c with viewers := 0, isLive := false }

/-- One step of the sequential retry pass (`app.py` lines 155-171): only
candidates whose title is still the placeholder are retried; on HTTP 200 the
title (with the per-streamer fallback), viewers and isLive are refreshed; on
an exception only the fallback title is set; on a non-200 response nothing
at all is changed. -/
def retryStep (r : DetailResult) (c : Cand) : Cand :=
  if c.title = "Unknown Title" then
    match r with
    | .err => { c with title := "Live Stream of " ++ c.streamerName }
    | .http status np il t =>
      if status = 200 then
        { c with title := pyOrTitle t ("Live Stream of " ++ c.streamerName)
                 viewers := np.getD 0
                 isLive := il.getD false }
      else c
  else c

/-- Map a function of the element's position over a list (the detail tasks
and the retry loop act on `all_streams` positionally). -/
def mapWithIdx (f : Nat → Cand → Cand) : Nat → List Cand → List Cand
  | _, [] => []
  | i, c :: cs => f i c :: mapWithIdx f (i + 1) cs

/-- The concurrent gather: every candidate is mutated by its own detail
response (`o1` gives the response of the task for the candidate at each
position). -/
def gatherPass (o1 : Nat → DetailResult) (cs : List Cand) : List Cand :=
  mapWithIdx (fun i c => applyDetail1 (o1 i) c) 0 cs

/-- The sequential retry pass over the gathered list (`o2` gives the retry
response per position; it is only consulted for placeholder titles). -/
def retryPass (o2 : Nat → DetailResult) (cs : List Cand) : List Cand :=
  mapWithIdx (fun i c => retryStep (o2 i) c) 0 cs

/-- `fetch_live_streams` on the processed coins: build candidates (blacklist
filtered), enrich concurrently, retry sequentially, and keep only the live
ones.  This list is what the collection loop persists as the snapshot. -/
def fetch_live_streams (mk : Coin → Cand) (coins : List Coin) (blacklist : List String)
    (o1 o2 : Nat → DetailResult) : List Cand :=
  (retryPass o2 (gatherPass o1 (collectCandidates mk coins blacklist))).filter (·.isLive)

/-- Models the persist step of the collection loop (`app.py` lines 189-190
and `scraper/live_streams_viewercount.py` lines 158-159):
`open(STREAMS_FILE, "w")` truncates the file to empty immediately, and
`json.dump` then writes the serialized chunks sequentially.  The previous
content is the first argument; `failAfter = some k` models a write failure
after `k` chunks were flushed, `none` a successful write.  The observed file
content is returned. -/
def observedAfterWrite (_oldContent : String) (chunks : List String)
    (failAfter : Option Nat) : String :=
  let afterOpen : String := ""
  match failAfter with
  | none => afterOpen ++ String.join chunks
  | some k => afterOpen ++ String.join (chunks.take k)

/-! ## Definitions written from the spec's words, for refinement claims -/

/-- Written from the spec's words (ordering, first half): the non-blacklisted
snapshot items, in snapshot order, each rendered as a public item. -/
def specLiveOrder (streams : List SnapItem) (bl feat : List String) : List OutItem :=
  (streams.filter (fun s => !(optMem s.mintId bl))).map (toOutItem feat)

/-- Written from the spec's words (ordering, second half): the offline
backfill items for the identifiers of `order` that were not processed and
have a cache entry, in the order of `order`. -/
def specBackfill (order processed : List String) (cache : Cache) : List OutItem :=
  order.filterMap (fun m =>
    if slMem processed m then none else (alookup cache m).map backfillItem)

/-- The known alternate gateway markers, in the order the code tests them. -/
def gatewayMarkers : List String := ["ipfs.io/ipfs/", "cf-ipfs.com/ipfs/"]

/-- Written from the spec's words: a thumbnail on a known alternate
content-addressed gateway is rewritten to the canonical gateway with the
path preserved; any other thumbnail is passed through unchanged. -/
def specThumbRewrite (t : String) : String :=
  match gatewayMarkers.find? (fun g => !(t == "") && pyContains g t) with
  | some g => pyReplace t g "dweb.link/ipfs/"
  | none => t

/-- Failure of a detail request in the sense of the spec: an exception
(timeout, transport error) or a non-200 HTTP status. -/
def isFailD : DetailResult → Bool
  | .err => true
  | .http status _ _ _ => status ≠ 200

/-! ## Concrete sample data used by witnesses and counterexamples -/

/-- A sample cache entry for identifier `A`. -/
def entryA : CacheEntry := ⟨some "TA", none, none, none, none, none, some "A"⟩

/-- A sample cache entry for identifier `B`. -/
def entryB : CacheEntry := ⟨some "TB", none, none, none, none, none, some "B"⟩

/-- A listing object carrying no `mint` field. -/
def coinNoMint : Coin := ⟨none, some "Bob", some ""⟩

/-- A listing object with a mint and an alternate-gateway thumbnail. -/
def coinIpfs : Coin := ⟨some "M", some "Bob", some "https://ipfs.io/ipfs/abc"⟩

/-- A live snapshot item with identifier `A`. -/
def itemA : SnapItem :=
  ⟨some "A", some "T", some "th", some 3, some "N", some "G", some "u", some true⟩

/-- A successful detail response marking the stream live. -/
def okLive : DetailResult := .http 200 (some 5) (some true) (some "T")

/-- A failed detail response: HTTP 404, no body fields. -/
def bad404 : DetailResult := .http 404 none none none

/-! ## Association-list lemmas -/

theorem slMem_iff (l : List String) (a : String) : slMem l a = true ↔ a ∈ l := by
  induction l with
  | nil => simp [slMem]
  | cons x xs ih =>
    simp only [slMem, List.mem_cons]
    by_cases h : x = a
    · subst h; simp
    · rw [if_neg h, ih]
      constructor
      · exact fun hm => Or.inr hm
      · rintro (rfl | hm)
        · exact absurd rfl h
        · exact hm

theorem alookup_cons (a : String) (b : CacheEntry) (rest : Cache) (k : String) :
    alookup ((a, b) :: rest) k = if a = k then some b else alookup rest k := rfl

theorem keyMem_cons (a : String) (b : CacheEntry) (rest : Cache) (k : String) :
    keyMem ((a, b) :: rest) k = if a = k then true else keyMem rest k := rfl

theorem alookup_map_replace (c : Cache) (k v k') :
    alookup (c.map (fun p => if p.1 = k then (k, v) else p)) k' =
      if k' = k ∧ keyMem c k = true then some v else alookup c k' := by
  induction c with
  | nil => simp [alookup, keyMem]
  | cons p rest ih =>
    obtain ⟨a, b⟩ := p
    simp only [List.map_cons]
    by_cases hak : a = k
    · subst hak
      have hhead : (if (a, b).1 = a then (a, v) else (a, b)) = (a, v) := by simp
      rw [hhead]
      by_cases hk' : k' = a
      · subst hk'
        simp [alookup_cons, keyMem_cons]
      · have hk2 : ¬a = k' := fun h => hk' h.symm
        simp [alookup_cons, keyMem_cons, hk', hk2, ih]
    · have hhead : (if (a, b).1 = k then (k, v) else (a, b)) = (a, b) := by simp [hak]
      rw [hhead]
      by_cases hk' : a = k'
      · subst hk'
        simp [alookup_cons, keyMem_cons, hak]
      · simp [alookup_cons, keyMem_cons, hak, hk', ih]

theorem alookup_append_single (c : Cache) (k v k') :
    alookup (c ++ [(k, v)]) k' =
      match alookup c k' with
      | some w => some w
      | none => if k = k' then some v else none := by
  induction c with
  | nil => simp [alookup]
  | cons p rest ih =>
    obtain ⟨a, b⟩ := p
    by_cases hak : a = k'
    · simp [alookup, hak]
    · simp only [List.cons_append, alookup, if_neg hak]
      exact ih

theorem alookup_of_keyMem_false (c : Cache) (k) (h : keyMem c k = false) :
    alookup c k = none := by
  induction c with
  | nil => rfl
  | cons p rest ih =>
    obtain ⟨a, b⟩ := p
    simp only [keyMem] at h
    by_cases hak : a = k
    · rw [if_pos hak] at h; exact absurd h (by simp)
    · rw [if_neg hak] at h
      simp only [alookup, if_neg hak]
      exact ih h

theorem alookup_dictInsert (c : Cache) (k v k') :
    alookup (dictInsert c k v) k' = if k' = k then some v else alookup c k' := by
  unfold dictInsert
  by_cases hmem : keyMem c k = true
  · rw [if_pos hmem, alookup_map_replace]
    by_cases hk : k' = k
    · simp [hk, hmem]
    · simp [hk]
  · rw [if_neg hmem, alookup_append_single]
    have hnone : alookup c k = none :=
      alookup_of_keyMem_false c k (by revert hmem; cases keyMem c k <;> simp)
    by_cases hk : k' = k
    · subst hk; simp [hnone]
    · have hk2 : ¬k = k' := fun h => hk h.symm
      cases hc : alookup c k' with
      | some w => simp [hc, hk]
      | none => simp [hc, hk, hk2]

/-! ## Cache refresh and eviction lemmas -/

theorem alookup_refreshCache (streams : List SnapItem) (feat : List String) (c : Cache)
    (k : String) :
    alookup (refreshCache streams feat c) k =
      match lastHit streams feat k with
      | some v => some v
      | none => alookup c k := by
  induction streams generalizing c with
  | nil => simp [refreshCache, lastHit]
  | cons s rest ih =>
    simp only [refreshCache, lastHit]
    cases hup : upsertKV s feat with
    | none =>
      simp only [hup]
      rw [ih]
      cases lastHit rest feat k <;> simp
    | some mv =>
      obtain ⟨m, v⟩ := mv
      simp only [hup]
      rw [ih]
      cases lastHit rest feat k with
      | some w => simp
      | none =>
        rw [alookup_dictInsert]
        by_cases hmk : m = k
        · subst hmk; simp
        · have hkm : ¬k = m := fun h => hmk h.symm
          simp [hmk, hkm]

theorem alookup_evictCache (feat : List String) (c : Cache) (k : String) :
    alookup (evictCache feat c) k =
      if slMem feat k = true then alookup c k else none := by
  induction c with
  | nil => simp [evictCache, alookup]
  | cons p rest ih =>
    obtain ⟨a, b⟩ := p
    simp only [evictCache, List.filter_cons] at *
    by_cases ha : slMem feat a = true
    · by_cases hak : a = k
      · subst hak
        simp [ha, alookup_cons]
      · simp [ha, alookup_cons, hak, ih]
    · by_cases hak : a = k
      · subst hak
        simp only [ha]
        simp only [Bool.false_eq_true, if_false] at *
        rw [ih]
        simp [show slMem feat a = false by revert ha; cases slMem feat a <;> simp]
      · simp only [ha]
        simp only [Bool.false_eq_true, if_false] at *
        rw [ih]
        simp [alookup_cons, hak]

theorem persistedCache_idem (streams : List SnapItem) (feat : List String) (c0 : Cache)
    (k : String) :
    alookup (evictCache feat (refreshCache streams feat
        (evictCache feat (refreshCache streams feat c0)))) k
      = alookup (evictCache feat (refreshCache streams feat c0)) k := by
  rw [alookup_evictCache, alookup_evictCache, alookup_refreshCache, alookup_refreshCache]
  by_cases hk : slMem feat k = true
  · rw [if_pos hk, if_pos hk]
    cases hl : lastHit streams feat k with
    | some v => simp
    | none => simp [alookup_evictCache, alookup_refreshCache, hl, hk]
  · rw [if_neg hk, if_neg hk]

theorem backfillPass_congr (fe pr : List String) (c c' : Cache)
    (h : ∀ k, alookup c k = alookup c' k) :
    backfillPass fe pr c = backfillPass fe pr c' := by
  induction fe with
  | nil => rfl
  | cons m ms ih =>
    simp only [backfillPass, h m, ih]

/-! ## Structure of the visible output -/

theorem livePass_fst (streams : List SnapItem) (bl feat : List String) :
    (livePass streams bl feat).1 = specLiveOrder streams bl feat := by
  induction streams with
  | nil => rfl
  | cons s rest ih =>
    simp only [livePass, specLiveOrder, List.filter_cons] at *
    by_cases h : optMem s.mintId bl = true
    · simp [h, ih]
    · have hb : optMem s.mintId bl = false := by revert h; cases optMem s.mintId bl <;> simp
      simp [h, hb, ih]

theorem backfillPass_eq_spec (fe pr : List String) (c : Cache) :
    backfillPass fe pr c = specBackfill fe pr c := by
  induction fe with
  | nil => rfl
  | cons m ms ih =>
    simp only [backfillPass, specBackfill, List.filterMap_cons] at *
    by_cases h : slMem pr m = true
    · simp [h, ih]
    · have hb : slMem pr m = false := by revert h; cases slMem pr m <;> simp
      cases hc : alookup c m with
      | some e => simp [h, hb, hc, ih]
      | none => simp [h, hb, hc, ih]

theorem core_idem (streams : List SnapItem) (bl feat fe : List String) (c0 : Cache) :
    (get_streams_core streams bl feat fe ((get_streams_core streams bl feat fe c0).2)).1
        = (get_streams_core streams bl feat fe c0).1
      ∧ ∀ k, alookup ((get_streams_core streams bl feat fe
            ((get_streams_core streams bl feat fe c0).2)).2) k
          = alookup ((get_streams_core streams bl feat fe c0).2) k := by
  have hc : ∀ k, alookup ((get_streams_core streams bl feat fe
        ((get_streams_core streams bl feat fe c0).2)).2) k
      = alookup ((get_streams_core streams bl feat fe c0).2) k :=
    fun k => persistedCache_idem streams feat c0 k
  refine ⟨?_, hc⟩
  have hb := backfillPass_congr fe (livePass streams bl feat).2 _ _ hc
  exact congrArg (fun x => (livePass streams bl feat).1 ++ x) hb

/-! ## Claim theorems -/

/-- C1: for every reconciliation call of the `/api/streams` handler that
reaches the cache-eviction step (a successfully loaded snapshot), every key
of the persisted featured cache is a member of the featured list read at the
start of the call, for every initial cache and snapshot content. -/
theorem c1_cache_keys_subset_featured (streams : List SnapItem) (bl feat fe : List String)
    (c0 : Cache) (kv : String × CacheEntry)
    (h : kv ∈ (get_streams (.ok streams) bl feat fe c0).2) : kv.1 ∈ feat := by
  have h' : kv ∈ evictCache feat (refreshCache streams feat c0) := h
  have hm := List.mem_filter.mp h'
  exact (slMem_iff feat kv.1).mp hm.2

theorem c1_witness : (("A", entryA) : String × CacheEntry).1 ∈ ["A"] :=
  c1_cache_keys_subset_featured [] [] ["A"] ["A"] [("A", entryA)] ("A", entryA) (by decide)

/-- C2: with the snapshot, blacklist, featured list (and the set-iteration
order it determines within one process) fixed, calling the reconciler a
second time on the cache persisted by the first call yields the same visible
response, and the cache it persists has the same logical content (the same
key-value mapping) as after the first call. -/
theorem c2_reconcile_idempotent (streams : List SnapItem) (bl feat fe : List String)
    (c0 : Cache) :
    (get_streams (.ok streams) bl feat fe ((get_streams (.ok streams) bl feat fe c0).2)).1
        = (get_streams (.ok streams) bl feat fe c0).1
      ∧ ∀ k, alookup ((get_streams (.ok streams) bl feat fe
            ((get_streams (.ok streams) bl feat fe c0).2)).2) k
          = alookup ((get_streams (.ok streams) bl feat fe c0).2) k := by
  obtain ⟨hout, hc⟩ := core_idem streams bl feat fe c0
  constructor
  · show ApiResponse.mk
        (get_streams_core streams bl feat fe ((get_streams_core streams bl feat fe c0).2)).1 none
      = ApiResponse.mk (get_streams_core streams bl feat fe c0).1 none
    rw [hout]
  · exact hc

/-- C4 as stated is false: the offline backfill items are appended in the
iteration order of the materialized featured-id set, which Python does not
guarantee to be the featured-list file order.  With featured list
`["A", "B"]`, a set-iteration order `["B", "A"]`, an empty snapshot and both
identifiers cached, the backfill comes out in the order `B, A`, not the
featured-list order `A, B`. -/
theorem c4_counterexample :
    ¬ (∀ (streams : List SnapItem) (bl feat fe : List String) (c0 : Cache),
        fe.Nodup → (∀ m, m ∈ fe ↔ m ∈ feat) →
        (get_streams_core streams bl feat fe c0).1 =
          specLiveOrder streams bl feat ++
            specBackfill feat (livePass streams bl feat).2
              ((get_streams_core streams bl feat fe c0).2)) := by
  intro h
  have h2 := h [] [] ["A", "B"] ["B", "A"] [("A", entryA), ("B", entryB)]
    (by decide)
    (by intro m; simp only [List.mem_cons, List.mem_singleton]; tauto)
  exact absurd h2 (by decide)

/-- C4 amended: the output is the non-blacklisted snapshot items in snapshot
order, followed by the offline backfill items for the unprocessed cached
featured identifiers in the iteration order of the materialized featured-id
set (not necessarily the featured-list file order). -/
theorem c4_output_shape_amended (streams : List SnapItem) (bl feat fe : List String)
    (c0 : Cache) :
    (get_streams_core streams bl feat fe c0).1 =
      specLiveOrder streams bl feat ++
        specBackfill fe (livePass streams bl feat).2
          ((get_streams_core streams bl feat fe c0).2) := by
  show (livePass streams bl feat).1 ++ backfillPass fe (livePass streams bl feat).2 _ = _
  rw [livePass_fst, backfillPass_eq_spec]
  rfl

/-! ## C6: failure behaviour of the read endpoint -/

/-- C6 as stated is false: a missing snapshot file returns a well-formed
empty response, but that response carries no error indicator (the early
return at `app.py` line 224 is a bare empty list). -/
theorem c6_counterexample :
    ¬ (∀ (r : SnapshotRead) (bl feat fe : List String) (c0 : Cache),
        (r = .missing ∨ r = .corrupt) →
        (get_streams r bl feat fe c0).1.streams = [] ∧
          ((get_streams r bl feat fe c0).1.error).isSome = true) := by
  intro h
  have h2 := h .missing [] [] [] [] (Or.inl rfl)
  exact absurd h2.2 (by decide)

/-- C6 amended: on either failure to load the snapshot the endpoint returns
a well-formed response with an empty `streams` list; the error indicator is
present exactly in the parse-failure case, while a missing file yields the
empty list with no error field. -/
theorem c6_failure_response_amended (r : SnapshotRead) (bl feat fe : List String)
    (c0 : Cache) (h : r = .missing ∨ r = .corrupt) :
    (get_streams r bl feat fe c0).1.streams = [] ∧
      (r = .corrupt → (get_streams r bl feat fe c0).1.error = some "Failed to load streams") ∧
      (r = .missing → (get_streams r bl feat fe c0).1.error = none) := by
  rcases h with rfl | rfl <;> simp [get_streams]

theorem c6_witness :
    (get_streams .corrupt [] [] [] []).1.streams = [] ∧
      (SnapshotRead.corrupt = .corrupt →
        (get_streams .corrupt [] [] [] []).1.error = some "Failed to load streams") ∧
      (SnapshotRead.corrupt = .missing →
        (get_streams .corrupt [] [] [] []).1.error = none) :=
  c6_failure_response_amended .corrupt [] [] [] [] (Or.inr rfl)

/-! ## C7: blacklist and offline backfill are independent filters -/

theorem livePass_fst_erase (streams : List SnapItem) (bl feat : List String) (m : String)
    (hbl : slMem bl m = true) :
    (livePass streams bl feat).1 =
      (livePass (streams.filter (fun s => !decide (s.mintId = some m))) bl feat).1 := by
  induction streams with
  | nil => rfl
  | cons s rest ih =>
    simp only [List.filter_cons]
    by_cases hsm : s.mintId = some m
    · have hopt : optMem (some m) bl = true := hbl
      simp [livePass, hsm, hopt, ih]
    · by_cases hb : optMem s.mintId bl = true
      · simp [livePass, hsm, hb, ih]
      · simp [livePass, hsm, hb, ih]

theorem processed_not_blacklisted (streams : List SnapItem) (bl feat : List String)
    (m : String) (hbl : slMem bl m = true) :
    slMem (livePass streams bl feat).2 m = false := by
  induction streams with
  | nil => rfl
  | cons s rest ih =>
    simp only [livePass]
    by_cases hb : optMem s.mintId bl = true
    · simp [hb, ih]
    · have hb' : optMem s.mintId bl = false := by
        revert hb; cases optMem s.mintId bl <;> simp
      cases hmint : s.mintId with
      | none =>
        rw [hmint] at hb'
        simp [hb', ih]
      | some m' =>
        rw [hmint] at hb'
        by_cases hf : slMem feat m' = true
        · have hne : m' ≠ m := by
            intro he
            rw [he] at hb'
            have hx : slMem bl m = false := hb'
            rw [hx] at hbl
            exact absurd hbl (by decide)
          simp [hb', hf, slMem, hne, ih]
        · have hf' : slMem feat m' = false := by
            revert hf; cases slMem feat m' <;> simp
          simp [hb', hf', ih]

theorem backfillItem_mem_backfillPass (fe pr : List String) (c : Cache) (m : String)
    (e : CacheEntry) (hfe : slMem fe m = true) (hpr : slMem pr m = false)
    (hc : alookup c m = some e) :
    backfillItem e ∈ backfillPass fe pr c := by
  induction fe with
  | nil => simp [slMem] at hfe
  | cons x xs ih =>
    simp only [backfillPass]
    by_cases hxm : x = m
    · subst hxm
      simp [hpr, hc]
    · have hfe' : slMem xs m = true := by simpa [slMem, hxm] using hfe
      by_cases hx : slMem pr x = true
      · simp only [hx, if_true]
        exact ih hfe'
      · have hx' : slMem pr x = false := by revert hx; cases slMem pr x <;> simp
        cases hcx : alookup c x with
        | some ex =>
          simp only [hx', Bool.false_eq_true, if_false, hcx]
          exact List.mem_cons_of_mem _ (ih hfe')
        | none =>
          simp only [hx', Bool.false_eq_true, if_false, hcx]
          exact ih hfe'

/-- C7: an identifier that is blacklisted, featured and cached produces no
snapshot-derived output item (removing its snapshot items does not change the
live pass), yet a synthesized offline backfill item for it is emitted with
`featured = true`, `isLive = false` and `viewerCount = 0`. -/
theorem c7_blacklisted_featured_backfill (streams : List SnapItem) (bl feat fe : List String)
    (c0 : Cache) (m : String) (e : CacheEntry)
    (hbl : slMem bl m = true) (hfeat : slMem feat m = true) (hfe : slMem fe m = true)
    (hcache : alookup c0 m = some e) :
    (livePass streams bl feat).1 =
        (livePass (streams.filter (fun s => !decide (s.mintId = some m))) bl feat).1
      ∧ ∃ e', alookup (get_streams_core streams bl feat fe c0).2 m = some e' ∧
          backfillItem e' ∈ (get_streams_core streams bl feat fe c0).1 ∧
          (backfillItem e').featured = true ∧ (backfillItem e').isLive = false ∧
          (backfillItem e').viewerCount = 0 := by
  refine ⟨livePass_fst_erase streams bl feat m hbl, ?_⟩
  have hsome : ∃ e', alookup (get_streams_core streams bl feat fe c0).2 m = some e' := by
    show ∃ e', alookup (evictCache feat (refreshCache streams feat c0)) m = some e'
    rw [alookup_evictCache, if_pos hfeat, alookup_refreshCache]
    cases lastHit streams feat m with
    | some v => exact ⟨v, rfl⟩
    | none => exact ⟨e, hcache⟩
  obtain ⟨e', he'⟩ := hsome
  refine ⟨e', he', ?_, rfl, rfl, rfl⟩
  have hnp : slMem (livePass streams bl feat).2 m = false :=
    processed_not_blacklisted streams bl feat m hbl
  have hmem := backfillItem_mem_backfillPass fe (livePass streams bl feat).2 _ m e' hfe hnp he'
  show backfillItem e' ∈
    (livePass streams bl feat).1 ++ backfillPass fe (livePass streams bl feat).2 _
  exact List.mem_append_right _ hmem

theorem c7_witness :
    (livePass [] ["A"] ["A"]).1 =
        (livePass (List.filter (fun s => !decide (s.mintId = some "A")) []) ["A"] ["A"]).1
      ∧ ∃ e', alookup (get_streams_core [] ["A"] ["A"] ["A"] [("A", entryA)]).2 "A" = some e' ∧
          backfillItem e' ∈ (get_streams_core [] ["A"] ["A"] ["A"] [("A", entryA)]).1 ∧
          (backfillItem e').featured = true ∧ (backfillItem e').isLive = false ∧
          (backfillItem e').viewerCount = 0 :=
  c7_blacklisted_featured_backfill [] ["A"] ["A"] ["A"] [("A", entryA)] "A" entryA
    (by decide) (by decide) (by decide) (by decide)

/-! ## C10: the cache refresh does not consult the blacklist -/

theorem upsertKV_some (s : SnapItem) (feat : List String) (m : String) (v : CacheEntry)
    (h : upsertKV s feat = some (m, v)) :
    s.mintId = some m ∧ slMem feat m = true ∧ s.isLive = some true ∧ v = snapProj s := by
  cases hmint : s.mintId with
  | none => simp [upsertKV, hmint] at h
  | some m' =>
    simp only [upsertKV, hmint] at h
    by_cases hc : slMem feat m' = true ∧ s.isLive = some true
    · rw [if_pos hc] at h
      have hp := Option.some.inj h
      have h1 : m' = m := congrArg Prod.fst hp
      have h2 : snapProj s = v := congrArg Prod.snd hp
      subst h1
      exact ⟨rfl, hc.1, hc.2, h2.symm⟩
    · rw [if_neg hc] at h; cases h

theorem lastHit_isSome_of_mem (streams : List SnapItem) (feat : List String) (s : SnapItem)
    (m : String) (hs : s ∈ streams) (hup : upsertKV s feat = some (m, snapProj s)) :
    ∃ w, lastHit streams feat m = some w := by
  induction streams with
  | nil => cases hs
  | cons t rest ih =>
    rcases List.mem_cons.mp hs with rfl | hmem
    · simp only [lastHit]
      cases hl : lastHit rest feat m with
      | some w => exact ⟨w, rfl⟩
      | none => rw [hup]; simp
    · obtain ⟨w, hw⟩ := ih hmem
      exact ⟨w, by simp only [lastHit, hw]⟩

theorem lastHit_spec (streams : List SnapItem) (feat : List String) (m : String)
    (w : CacheEntry) (h : lastHit streams feat m = some w) :
    ∃ s', s' ∈ streams ∧ upsertKV s' feat = some (m, w) := by
  induction streams with
  | nil => simp [lastHit] at h
  | cons t rest ih =>
    simp only [lastHit] at h
    cases hl : lastHit rest feat m with
    | some v =>
      simp only [hl] at h
      obtain rfl : v = w := Option.some.inj h
      obtain ⟨s', hs', hup⟩ := ih hl
      exact ⟨s', List.mem_cons_of_mem _ hs', hup⟩
    | none =>
      simp only [hl] at h
      cases hu : upsertKV t feat with
      | none => simp [hu] at h
      | some mv =>
        obtain ⟨m', v⟩ := mv
        simp only [hu] at h
        by_cases hm : m' = m
        · subst hm
          rw [if_pos rfl] at h
          obtain rfl : v = w := Option.some.inj h
          exact ⟨t, List.mem_cons_self t rest, hu⟩
        · rw [if_neg hm] at h; cases h

/-- C10: the cache-refresh step does not consult the blacklist: the
persisted cache is the same for any two blacklists, and a featured, live
snapshot item with a blacklisted mintId still has its cache entry upserted
(the entry holds the projection of the last such live featured item). -/
theorem c10_refresh_ignores_blacklist (streams : List SnapItem) (feat fe : List String)
    (c0 : Cache) (s : SnapItem) (m : String) (bl bl' : List String)
    (hs : s ∈ streams) (hm : s.mintId = some m) (hl : s.isLive = some true)
    (hfeat : slMem feat m = true) (hbl : slMem bl m = true) :
    (get_streams_core streams bl feat fe c0).2 = (get_streams_core streams bl' feat fe c0).2
      ∧ ∃ s', s' ∈ streams ∧ s'.mintId = some m ∧ s'.isLive = some true ∧
          alookup ((get_streams_core streams bl feat fe c0).2) m = some (snapProj s') := by
  refine ⟨rfl, ?_⟩
  have hup : upsertKV s feat = some (m, snapProj s) := by
    simp [upsertKV, hm, hfeat, hl]
  obtain ⟨w, hw⟩ := lastHit_isSome_of_mem streams feat s m hs hup
  obtain ⟨s', hs', hup'⟩ := lastHit_spec streams feat m w hw
  obtain ⟨hm', hfeat', hl', hv⟩ := upsertKV_some s' feat m w hup'
  refine ⟨s', hs', hm', hl', ?_⟩
  show alookup (evictCache feat (refreshCache streams feat c0)) m = some (snapProj s')
  rw [alookup_evictCache, if_pos hfeat, alookup_refreshCache, hw]
  exact congrArg some hv

theorem c10_witness :
    (get_streams_core [itemA] ["A"] ["A"] ["A"] []).2
        = (get_streams_core [itemA] [] ["A"] ["A"] []).2
      ∧ ∃ s', s' ∈ [itemA] ∧ s'.mintId = some "A" ∧ s'.isLive = some true ∧
          alookup ((get_streams_core [itemA] ["A"] ["A"] ["A"] []).2) "A"
            = some (snapProj s') :=
  c10_refresh_ignores_blacklist [itemA] ["A"] ["A"] [] itemA "A" ["A"] []
    (List.mem_cons_self itemA []) (by decide) (by decide) (by decide) (by decide)

/-! ## Enrichment pipeline lemmas -/

theorem mapWithIdx_get? (f : Nat → Cand → Cand) (n : Nat) (l : List Cand) (i : Nat) :
    (mapWithIdx f n l).get? i = (l.get? i).map (f (n + i)) := by
  induction l generalizing n i with
  | nil => simp [mapWithIdx]
  | cons c cs ih =>
    cases i with
    | zero => simp [mapWithIdx]
    | succ j =>
      show (mapWithIdx f (n + 1) cs).get? j = (cs.get? j).map (f (n + (j + 1)))
      rw [ih]
      have harith : n + 1 + j = n + (j + 1) := by omega
      rw [harith]

theorem mem_mapWithIdx (f : Nat → Cand → Cand) (n : Nat) (l : List Cand) (c' : Cand)
    (h : c' ∈ mapWithIdx f n l) : ∃ i c, c ∈ l ∧ c' = f i c := by
  induction l generalizing n with
  | nil => cases h
  | cons a as ih =>
    rcases List.mem_cons.mp h with rfl | hm
    · exact ⟨n, a, List.mem_cons_self a as, rfl⟩
    · obtain ⟨i, c, hc, rfl⟩ := ih (n + 1) hm
      exact ⟨i, c, List.mem_cons_of_mem _ hc, rfl⟩

theorem applyDetail1_mintId (r : DetailResult) (c : Cand) :
    (applyDetail1 r c).mintId = c.mintId := by
  cases r with
  | err => rfl
  | http st np il t =>
    simp only [applyDetail1]
    by_cases h : st = 200 <;> simp [h]

theorem applyDetail1_streamerName (r : DetailResult) (c : Cand) :
    (applyDetail1 r c).streamerName = c.streamerName := by
  cases r with
  | err => rfl
  | http st np il t =>
    simp only [applyDetail1]
    by_cases h : st = 200 <;> simp [h]

theorem retryStep_mintId (r : DetailResult) (c : Cand) :
    (retryStep r c).mintId = c.mintId := by
  simp only [retryStep]
  by_cases ht : c.title = "Unknown Title"
  · cases r with
    | err => simp [ht]
    | http st np il t =>
      by_cases h : st = 200 <;> simp [ht, h]
  · simp [ht]

theorem mem_collectCandidates (mk : Coin → Cand) (coins : List Coin) (bl : List String)
    (c : Cand) (h : c ∈ collectCandidates mk coins bl) :
    ∃ coin, coin ∈ coins ∧ c = mk coin ∧ optMem coin.mint bl = false := by
  induction coins with
  | nil => cases h
  | cons a as ih =>
    simp only [collectCandidates] at h
    by_cases hb : optMem a.mint bl = true
    · rw [if_pos hb] at h
      obtain ⟨coin, hc, rfl, hbl⟩ := ih h
      exact ⟨coin, List.mem_cons_of_mem _ hc, rfl, hbl⟩
    · have hb' : optMem a.mint bl = false := by
        revert hb; cases optMem a.mint bl <;> simp
      rw [if_neg hb] at h
      rcases List.mem_cons.mp h with rfl | hm
      · exact ⟨a, List.mem_cons_self a as, rfl, hb'⟩
      · obtain ⟨coin, hc, rfl, hbl⟩ := ih hm
        exact ⟨coin, List.mem_cons_of_mem _ hc, rfl, hbl⟩

theorem collectCandidates_title (coins : List Coin) (bl : List String) (c : Cand)
    (h : c ∈ collectCandidates mkCandApp coins bl) : c.title = "Unknown Title" := by
  obtain ⟨coin, -, rfl, -⟩ := mem_collectCandidates mkCandApp coins bl c h
  rfl

/-- C5 as stated is false: a candidate whose initial detail fetch fails and
whose retry comes back with a non-200 status (rather than an exception)
keeps the placeholder title "Unknown Title" — the retry loop has no handling
for a non-200 response, only an `except` branch. -/
theorem c5_counterexample :
    ¬ (∀ (coins : List Coin) (bl : List String) (o1 o2 : Nat → DetailResult) (i : Nat)
        (c0 cf : Cand),
        (collectCandidates mkCandApp coins bl).get? i = some c0 →
        (retryPass o2 (gatherPass o1 (collectCandidates mkCandApp coins bl))).get? i = some cf →
        isFailD (o1 i) = true → isFailD (o2 i) = true →
        cf.title = "Live Stream of " ++ c0.streamerName) := by
  intro h
  have h2 := h [coinIpfs] [] (fun _ => bad404) (fun _ => bad404) 0
    (mkCandApp coinIpfs) (retryStep bad404 (applyDetail1 bad404 (mkCandApp coinIpfs)))
    (by decide) (by decide) (by decide) (by decide)
  exact absurd h2 (by decide)

/-- C5 amended: when the initial detail fetch of a candidate fails (timeout,
transport error, or non-200 status), the final title depends on how the
retry fails: an exception yields the fallback "Live Stream of
{streamerName}", while a non-200 retry response leaves the placeholder
"Unknown Title" in place. -/
theorem c5_title_fallback_amended (coins : List Coin) (bl : List String)
    (o1 o2 : Nat → DetailResult) (i : Nat) (c0 cf : Cand)
    (h0 : (collectCandidates mkCandApp coins bl).get? i = some c0)
    (hf : (retryPass o2 (gatherPass o1 (collectCandidates mkCandApp coins bl))).get? i = some cf)
    (hfail : isFailD (o1 i) = true) :
    (o2 i = .err → cf.title = "Live Stream of " ++ c0.streamerName)
      ∧ (isFailD (o2 i) = true → o2 i ≠ .err → cf.title = "Unknown Title") := by
  have hc0mem : c0 ∈ collectCandidates mkCandApp coins bl := List.get?_mem h0
  have htitle : c0.title = "Unknown Title" := collectCandidates_title coins bl c0 hc0mem
  have hcf : cf = retryStep (o2 i) (applyDetail1 (o1 i) c0) := by
    have h1 : (gatherPass o1 (collectCandidates mkCandApp coins bl)).get? i
        = some (applyDetail1 (o1 i) c0) := by
      unfold gatherPass
      rw [mapWithIdx_get?, h0]
      simp
    have h2 : (retryPass o2 (gatherPass o1 (collectCandidates mkCandApp coins bl))).get? i
        = some (retryStep (o2 i) (applyDetail1 (o1 i) c0)) := by
      unfold retryPass
      rw [mapWithIdx_get?, h1]
      simp
    rw [h2] at hf
    exact (Option.some.inj hf).symm
  have htitle1 : (applyDetail1 (o1 i) c0).title = "Unknown Title" := by
    cases ho : o1 i with
    | err => simp [applyDetail1, htitle]
    | http st np il t =>
      rw [ho] at hfail
      have hst : st ≠ 200 := by simpa [isFailD] using hfail
      simp [applyDetail1, hst, htitle]
  have hname1 : (applyDetail1 (o1 i) c0).streamerName = c0.streamerName :=
    applyDetail1_streamerName (o1 i) c0
  constructor
  · intro he
    rw [hcf, he]
    simp [retryStep, htitle1, hname1]
  · intro hfail2 hne
    cases ho2 : o2 i with
    | err => exact absurd ho2 hne
    | http st np il t =>
      rw [ho2] at hfail2
      have hst : st ≠ 200 := by simpa [isFailD] using hfail2
      rw [hcf, ho2]
      simp [retryStep, htitle1, hst]

theorem c5_witness :
    ((fun _ : Nat => DetailResult.err) 0 = .err →
        (retryStep .err (applyDetail1 bad404 (mkCandApp coinIpfs))).title
          = "Live Stream of " ++ (mkCandApp coinIpfs).streamerName)
      ∧ (isFailD ((fun _ : Nat => DetailResult.err) 0) = true →
          (fun _ : Nat => DetailResult.err) 0 ≠ .err →
          (retryStep .err (applyDetail1 bad404 (mkCandApp coinIpfs))).title
            = "Unknown Title") :=
  c5_title_fallback_amended [coinIpfs] [] (fun _ => bad404) (fun _ => .err) 0
    (mkCandApp coinIpfs) (retryStep .err (applyDetail1 bad404 (mkCandApp coinIpfs)))
    (by decide) (by decide) (by decide)

/-! ## Thumbnail normalization (C8) -/

theorem rewriteThumb_eq_spec (t : String) : rewriteThumb t = specThumbRewrite t := by
  unfold rewriteThumb specThumbRewrite gatewayMarkers
  by_cases h0 : t = ""
  · subst h0
    simp
  · have hbe : (t == "") = false := beq_eq_false_iff_ne.mpr h0
    by_cases h1 : pyContains "ipfs.io/ipfs/" t = true
    · simp [h0, h1, hbe, List.find?]
    · have h1' : pyContains "ipfs.io/ipfs/" t = false := by
        revert h1; cases pyContains "ipfs.io/ipfs/" t <;> simp
      by_cases h2 : pyContains "cf-ipfs.com/ipfs/" t = true
      · simp [h0, h1', h2, hbe, List.find?]
      · have h2' : pyContains "cf-ipfs.com/ipfs/" t = false := by
          revert h2; cases pyContains "cf-ipfs.com/ipfs/" t <;> simp
        simp [h0, h1', h2', hbe, List.find?]

/-- C8 as stated is false: only the app's listing fetcher rewrites alternate
gateway thumbnails; the standalone scraper's listing fetcher passes every
thumbnail through unchanged, including those on alternate gateway hosts. -/
theorem c8_counterexample :
    ¬ (∀ coin : Coin,
        (mkCandApp coin).thumbnail = specThumbRewrite (coin.image_uri.getD "") ∧
        (mkCandScraper coin).thumbnail = specThumbRewrite (coin.image_uri.getD "")) := by
  intro h
  exact absurd (h coinIpfs).2 (by decide)

/-- C8 amended: the app fetcher's candidates carry the gateway-rewritten
thumbnail (the code's rewrite agrees with the spec's host-substitution
description on every input), while the standalone scraper's candidates carry
the upstream `image_uri` unchanged in every case. -/
theorem c8_thumbnail_amended (t : String) (coins : List Coin) (bl : List String) (c : Cand) :
    rewriteThumb t = specThumbRewrite t
      ∧ (c ∈ collectCandidates mkCandApp coins bl →
          ∃ coin, coin ∈ coins ∧ c.thumbnail = specThumbRewrite (coin.image_uri.getD ""))
      ∧ (c ∈ collectCandidates mkCandScraper coins bl →
          ∃ coin, coin ∈ coins ∧ c.thumbnail = coin.image_uri.getD "") := by
  refine ⟨rewriteThumb_eq_spec t, ?_, ?_⟩
  · intro h
    obtain ⟨coin, hc, rfl, -⟩ := mem_collectCandidates mkCandApp coins bl c h
    exact ⟨coin, hc, rewriteThumb_eq_spec (coin.image_uri.getD "")⟩
  · intro h
    obtain ⟨coin, hc, rfl, -⟩ := mem_collectCandidates mkCandScraper coins bl c h
    exact ⟨coin, hc, rfl⟩

theorem c8_witness :
    ∃ coin, coin ∈ [coinIpfs]
      ∧ (mkCandApp coinIpfs).thumbnail = specThumbRewrite (coin.image_uri.getD "") :=
  (c8_thumbnail_amended "" [coinIpfs] [] (mkCandApp coinIpfs)).2.1 (by decide)

/-! ## MintId pass-through (C9) -/

theorem mem_fetch_live_streams (mk : Coin → Cand) (coins : List Coin) (bl : List String)
    (o1 o2 : Nat → DetailResult) (c : Cand) (h : c ∈ fetch_live_streams mk coins bl o1 o2) :
    ∃ cand, cand ∈ collectCandidates mk coins bl ∧ c.mintId = cand.mintId
      ∧ c.isLive = true := by
  unfold fetch_live_streams at h
  obtain ⟨hr, hlive⟩ := List.mem_filter.mp h
  obtain ⟨i, c2, hc2, rfl⟩ := mem_mapWithIdx _ _ _ _ hr
  obtain ⟨j, c1, hc1, rfl⟩ := mem_mapWithIdx _ _ _ _ hc2
  refine ⟨c1, hc1, ?_, hlive⟩
  rw [retryStep_mintId, applyDetail1_mintId]

/-- C9 as stated is false: nothing validates `mintId`.  A listing object
with no `mint` field yields a candidate with an absent mintId, and if its
detail enrichment marks it live it reaches the persisted snapshot. -/
theorem c9_counterexample :
    ¬ (∀ (coins : List Coin) (bl : List String) (o1 o2 : Nat → DetailResult) (c : Cand),
        c ∈ fetch_live_streams mkCandApp coins bl o1 o2 →
        ∃ m, c.mintId = some m ∧ m ≠ "") := by
  intro h
  have h2 := h [coinNoMint] [] (fun _ => okLive) (fun _ => okLive)
    (retryStep okLive (applyDetail1 okLive (mkCandApp coinNoMint))) (by decide)
  obtain ⟨m, hm, -⟩ := h2
  exact Option.noConfusion hm

/-- C9 amended: every item of the persisted snapshot carries the upstream
`mint` value verbatim (possibly absent or empty — no validation or dropping
on mintId occurs), comes from a non-blacklisted listing object, and is
live. -/
theorem c9_mint_passthrough_amended (coins : List Coin) (bl : List String)
    (o1 o2 : Nat → DetailResult) (c : Cand)
    (h : c ∈ fetch_live_streams mkCandApp coins bl o1 o2) :
    ∃ coin, coin ∈ coins ∧ c.mintId = coin.mint ∧ optMem coin.mint bl = false
      ∧ c.isLive = true := by
  obtain ⟨cand, hcand, hmint, hlive⟩ :=
    mem_fetch_live_streams mkCandApp coins bl o1 o2 c h
  obtain ⟨coin, hcoin, rfl, hb⟩ := mem_collectCandidates mkCandApp coins bl cand hcand
  exact ⟨coin, hcoin, hmint, hb, hlive⟩

theorem c9_witness :
    ∃ coin, coin ∈ [coinIpfs]
      ∧ (retryStep okLive (applyDetail1 okLive (mkCandApp coinIpfs))).mintId = coin.mint
      ∧ optMem coin.mint [] = false
      ∧ (retryStep okLive (applyDetail1 okLive (mkCandApp coinIpfs))).isLive = true :=
  c9_mint_passthrough_amended [coinIpfs] [] (fun _ => okLive) (fun _ => okLive)
    (retryStep okLive (applyDetail1 okLive (mkCandApp coinIpfs))) (by decide)

/-! ## Snapshot persist step (C3) -/

/-- C3 fails on the code: the collection loop persists the snapshot with
`open(STREAMS_FILE, "w")` followed by `json.dump`, which truncates the file
in place before writing.  A failure after the open but before any chunk is
flushed leaves an empty file, and a failure mid-write leaves a prefix of the
new content; in neither case does the previous snapshot content survive. -/
theorem c3_truncate_in_place :
    observedAfterWrite "old-snapshot" ["new-", "chunk"] (some 0) = ""
      ∧ observedAfterWrite "old-snapshot" ["new-", "chunk"] (some 1) = "new-"
      ∧ observedAfterWrite "old-snapshot" ["new-", "chunk"] none = "new-chunk"
      ∧ observedAfterWrite "old-snapshot" ["new-", "chunk"] (some 0) ≠ "old-snapshot" := by
  refine ⟨by decide, by decide, by decide, by decide⟩

end PumpStreams
